import Mathlib

/-!
Verification of the silver-spoon tensor core (crates/tensor).

The Rust source is shallowly embedded:
  - the element type T is modelled as Int (a signed integer type, which the
    tests of types.rs instantiate);
  - Vec indexing v[i] panics when i is out of bounds, so every operation that
    indexes is embedded in the Except RustPanic monad, where Except.error
    models a Rust panic (fatal, unrecoverable) and Except.ok a normal return;
  - Rc<RefCell<Vec<T>>> storage is modelled in two ways: a plain List Int for
    value-level reasoning, and an explicit store (list of buffers addressed by
    index) for the aliasing / fresh-allocation claims.
-/

namespace SilverSpoon

/-- The two panics the tensor arithmetic of types.rs can raise: the explicit
shape-mismatch panic at the top of add and sub, and the implicit Vec index
out-of-bounds panic raised by left_data[i] or right_data[i]. -/
inductive RustPanic where
  | shapeMismatch (left right : List Nat) : RustPanic
  | indexOutOfBounds (idx len : Nat) : RustPanic
deriving DecidableEq

/-- types.rs struct BaseTensor<T>: shared flat data buffer plus view metadata
(shape, strides, offset). The Rc<RefCell<...>> wrapper is dropped here; the
buffer is the list it contains (aliasing is treated separately, see the store
model below). -/
structure BaseTensor where
  data : List Int
  shape : List Nat
  strides : List Nat
  offset : Nat
deriving DecidableEq

/-- types.rs struct Tensor<T>: a wrapper around BaseTensor. -/
structure Tensor where
  base : BaseTensor
deriving DecidableEq

/-- The element loop shared by add (types.rs lines 43-49) and sub (lines
107-110): for i in 0..total_size it reads left_data[i], then right_data[i]
(each read panics when out of bounds, exactly as Vec indexing does), and
pushes op(left_data[i], right_data[i]) onto the result vector. The second
component of the result is the trace of flat indices actually read, in order
(each successful iteration reads index i twice, once per operand); it is used
to state that a panic before the loop reads no element at all. The arguments
are the operator, the two buffers, the starting index i and the number of
iterations left. -/
def elemLoopFrom (op : Int → Int → Int) (left right : List Int) :
    Nat → Nat → Except RustPanic (List Int) × List Nat
  | _, 0 => (.ok [], [])
  | i, n + 1 =>
    match left[i]? with
    | none => (.error (.indexOutOfBounds i left.length), [])
    | some lv =>
      match right[i]? with
      | none => (.error (.indexOutOfBounds i right.length), [i])
      | some rv =>
        let rest := elemLoopFrom op left right (i + 1) n
        (rest.1.map (fun d => op lv rv :: d), i :: i :: rest.2)

/-- impl Add for BaseTensor (types.rs lines 25-60), with the read trace: check
shape equality first (panicking before anything else when the shapes differ),
compute total_size as the product of the shape, run the flat element loop, and
build the result from a fresh buffer with the same shape, the SAME strides as
self (copied, not recomputed), and offset 0. -/
def BaseTensor.addTraced (a b : BaseTensor) :
    Except RustPanic BaseTensor × List Nat :=
  if a.shape = b.shape then
    let res := elemLoopFrom (· + ·) a.data b.data 0 a.shape.prod
    (res.1.map fun d =>
      { data := d, shape := a.shape, strides := a.strides, offset := 0 },
     res.2)
  else
    (.error (.shapeMismatch a.shape b.shape), [])

/-- impl Add for BaseTensor, result only. -/
def BaseTensor.add (a b : BaseTensor) : Except RustPanic BaseTensor :=
  (BaseTensor.addTraced a b).1

/-- impl Add for Tensor (types.rs lines 63-79): delegates to BaseTensor
addition and rewraps. -/
def Tensor.add (a b : Tensor) : Except RustPanic Tensor :=
  (BaseTensor.add a.base b.base).map Tensor.mk

/-- impl Sub for Tensor (types.rs lines 81-124), with the read trace: the same
structure as BaseTensor addition but written directly at the Tensor level in
the source, using the element type subtraction; result buffer fresh, shape and
strides taken from self.base, offset 0. -/
def Tensor.subTraced (a b : Tensor) : Except RustPanic Tensor × List Nat :=
  if a.base.shape = b.base.shape then
    let res := elemLoopFrom (· - ·) a.base.data b.base.data 0 a.base.shape.prod
    (res.1.map fun d =>
      Tensor.mk
        { data := d, shape := a.base.shape, strides := a.base.strides,
          offset := 0 },
     res.2)
  else
    (.error (.shapeMismatch a.base.shape b.base.shape), [])

/-- impl Sub for Tensor, result only. -/
def Tensor.sub (a b : Tensor) : Except RustPanic Tensor :=
  (Tensor.subTraced a b).1

/-- Spec-side definition (spec section 4.1): the standard row-major (C-order)
contiguous strides for a shape, stride k being the product of the dimensions
after k. For shape [2,2] this is [2,1]. Used only to state the claims that
compare the strides the code produces with the contiguous default. -/
def contiguousStrides : List Nat → List Nat
  | [] => []
  | _ :: rest => rest.prod :: contiguousStrides rest

/-- Spec-side definition (spec sections 3 and 4.1): the row-major multi-index
corresponding to linear position i under a shape. -/
def unravel : List Nat → Nat → List Nat
  | [], _ => []
  | _ :: rest, i => i / rest.prod :: unravel rest (i % rest.prod)

/-- Spec-side definition (spec section 4.1): reading the element of a view at
linear position i requires computing offset + sum(index[k] * strides[k]) over
the row-major multi-index, then reading the storage there; none when that
storage index is out of bounds. -/
def logicalGet (t : BaseTensor) (i : Nat) : Option Int :=
  t.data[t.offset + ((unravel t.shape i).zip t.strides).foldl
      (fun acc p => acc + p.1 * p.2) 0]?

/-- When both buffers are long enough, the element loop succeeds and its j-th
output is op applied to the flat elements of the operands at index i + j. -/
theorem elemLoopFrom_ok (op : Int → Int → Int) (l r : List Int) :
    ∀ n i, i + n ≤ l.length → i + n ≤ r.length →
      ∃ d, (elemLoopFrom op l r i n).1 = .ok d ∧ d.length = n ∧
        ∀ j, j < n →
          d[j]? = Option.map₂ op l[i + j]? r[i + j]? := by
  intro n
  induction n with
  | zero =>
    intro i _ _
    exact ⟨[], rfl, rfl, fun j hj => absurd hj (by omega)⟩
  | succ n ih =>
    intro i hl hr
    have hil : i < l.length := by omega
    have hir : i < r.length := by omega
    obtain ⟨lv, hlv⟩ : ∃ v, l[i]? = some v := ⟨_, List.getElem?_eq_getElem hil⟩
    obtain ⟨rv, hrv⟩ : ∃ v, r[i]? = some v := ⟨_, List.getElem?_eq_getElem hir⟩
    obtain ⟨d, hd, hlen, hget⟩ := ih (i + 1) (by omega) (by omega)
    refine ⟨op lv rv :: d, ?_, by simp [hlen], ?_⟩
    · simp [elemLoopFrom, hlv, hrv, hd, Except.map]
    · intro j hj
      cases j with
      | zero => simp [hlv, hrv, Option.map₂]
      | succ j =>
        have hidx : i + (j + 1) = i + 1 + j := by omega
        rw [List.getElem?_cons_succ, hidx]
        exact hget j (by omega)

/-- When the shorter buffer ends before the loop does, the loop panics with
the index out-of-bounds panic at index min(len left, len right), which is also
the length of the buffer being indexed at that moment. -/
theorem elemLoopFrom_oob (op : Int → Int → Int) (l r : List Int) :
    ∀ n i, i ≤ min l.length r.length → min l.length r.length < i + n →
      (elemLoopFrom op l r i n).1 =
        .error (.indexOutOfBounds (min l.length r.length)
          (min l.length r.length)) := by
  intro n
  induction n with
  | zero => intro i hle hlt; omega
  | succ n ih =>
    intro i hle hlt
    rcases Nat.lt_or_ge i (min l.length r.length) with hi | hi
    · have hil : i < l.length := by omega
      have hir : i < r.length := by omega
      obtain ⟨lv, hlv⟩ : ∃ v, l[i]? = some v := ⟨_, List.getElem?_eq_getElem hil⟩
      obtain ⟨rv, hrv⟩ : ∃ v, r[i]? = some v := ⟨_, List.getElem?_eq_getElem hir⟩
      have hrec := ih (i + 1) (by omega) (by omega)
      simp [elemLoopFrom, hlv, hrv, hrec, Except.map]
    · rcases le_or_lt l.length r.length with hlr | hlr
      · have hnone : l[i]? = none := List.getElem?_eq_none (by omega)
        simp only [elemLoopFrom, hnone]
        simp only [Except.error.injEq, RustPanic.indexOutOfBounds.injEq]
        omega
      · have hil : i < l.length := by omega
        obtain ⟨lv, hlv⟩ : ∃ v, l[i]? = some v := ⟨_, List.getElem?_eq_getElem hil⟩
        have hnone : r[i]? = none := List.getElem?_eq_none (by omega)
        simp only [elemLoopFrom, hlv, hnone]
        simp only [Except.error.injEq, RustPanic.indexOutOfBounds.injEq]
        omega

/-- Unfolding helper: BaseTensor addition, when the shapes match and the
element loop returns ok d, returns the tensor with buffer d, the left shape
and strides, and offset 0. -/
theorem add_ok_of_loop (a b : BaseTensor) (h : a.shape = b.shape) (d : List Int)
    (hd : (elemLoopFrom (· + ·) a.data b.data 0 a.shape.prod).1 = .ok d) :
    BaseTensor.add a b = .ok ⟨d, a.shape, a.strides, 0⟩ := by
  unfold BaseTensor.add BaseTensor.addTraced
  rw [if_pos h]
  simp [hd, Except.map]

/-- Unfolding helper: BaseTensor addition propagates an element-loop panic. -/
theorem add_error_of_loop (a b : BaseTensor) (h : a.shape = b.shape)
    (e : RustPanic)
    (he : (elemLoopFrom (· + ·) a.data b.data 0 a.shape.prod).1 = .error e) :
    BaseTensor.add a b = .error e := by
  unfold BaseTensor.add BaseTensor.addTraced
  rw [if_pos h]
  simp [he, Except.map]

/-- Unfolding helper: Tensor subtraction, when the shapes match and the
element loop returns ok d, returns the tensor with buffer d, the left shape
and strides, and offset 0. -/
theorem sub_ok_of_loop (a b : Tensor) (h : a.base.shape = b.base.shape)
    (d : List Int)
    (hd : (elemLoopFrom (· - ·) a.base.data b.base.data 0
      a.base.shape.prod).1 = .ok d) :
    Tensor.sub a b = .ok ⟨⟨d, a.base.shape, a.base.strides, 0⟩⟩ := by
  unfold Tensor.sub Tensor.subTraced
  rw [if_pos h]
  simp [hd, Except.map]

/-- Unfolding helper: Tensor subtraction propagates an element-loop panic. -/
theorem sub_error_of_loop (a b : Tensor) (h : a.base.shape = b.base.shape)
    (e : RustPanic)
    (he : (elemLoopFrom (· - ·) a.base.data b.base.data 0
      a.base.shape.prod).1 = .error e) :
    Tensor.sub a b = .error e := by
  unfold Tensor.sub Tensor.subTraced
  rw [if_pos h]
  simp [he, Except.map]

/-- C1 counterexample: the claim fails for views with nonzero offset. Both
operands are the view of buffer [0, 5] with shape [1], strides [1], offset 1,
whose single logical element is 5 (so the logical sum is 10); the code reads
the buffers at flat index 0, ignoring the offset, and produces element 0. -/
theorem add_view_offset_counterexample :
    BaseTensor.add ⟨[0, 5], [1], [1], 1⟩ ⟨[0, 5], [1], [1], 1⟩ =
      .ok ⟨[0], [1], [1], 0⟩ ∧
    logicalGet ⟨[0, 5], [1], [1], 1⟩ 0 = some 5 ∧
    Option.map₂ (· + ·) (logicalGet ⟨[0, 5], [1], [1], 1⟩ 0)
      (logicalGet ⟨[0, 5], [1], [1], 1⟩ 0) = some 10 ∧
    (⟨[0], [1], [1], 0⟩ : BaseTensor).data[0]? = some 0 ∧
    (some 0 : Option Int) ≠ some 10 :=
  ⟨rfl, rfl, rfl, rfl, by decide⟩

/-- C1 (amended): for equal-shape BaseTensors whose buffers hold at least
product(shape) elements, a + b is a new BaseTensor whose shape equals a.shape
and whose element at every linear position i below product(shape) is the sum
of the FLAT buffer elements a.data[i] and b.data[i] — strides and offset of
the inputs are ignored by the element computation. -/
theorem add_flat_elementwise (a b : BaseTensor) (h : a.shape = b.shape)
    (ha : a.shape.prod ≤ a.data.length) (hb : a.shape.prod ≤ b.data.length) :
    ∃ r, BaseTensor.add a b = .ok r ∧ r.shape = a.shape ∧
      r.data.length = a.shape.prod ∧
      ∀ i, i < a.shape.prod →
        r.data[i]? = Option.map₂ (· + ·) a.data[i]? b.data[i]? := by
  obtain ⟨d, hd, hlen, hget⟩ :=
    elemLoopFrom_ok (· + ·) a.data b.data a.shape.prod 0 (by omega) (by omega)
  refine ⟨⟨d, a.shape, a.strides, 0⟩, add_ok_of_loop a b h d hd, rfl, hlen, ?_⟩
  intro i hi
  simpa using hget i hi

/-- C1 witness: the amended theorem applied to the contiguous test tensors of
types.rs. -/
theorem add_flat_elementwise_witness :
    (([2, 2] : List Nat) = [2, 2] ∧
      ([2, 2] : List Nat).prod ≤ ([1, 2, 3, 4] : List Int).length ∧
      ([2, 2] : List Nat).prod ≤ ([10, 20, 30, 40] : List Int).length) ∧
    ∃ r, BaseTensor.add ⟨[1, 2, 3, 4], [2, 2], [2, 1], 0⟩
        ⟨[10, 20, 30, 40], [2, 2], [2, 1], 0⟩ = .ok r ∧
      r.shape = (⟨[1, 2, 3, 4], [2, 2], [2, 1], 0⟩ : BaseTensor).shape ∧
      r.data.length = (⟨[1, 2, 3, 4], [2, 2], [2, 1], 0⟩ : BaseTensor).shape.prod ∧
      ∀ i, i < (⟨[1, 2, 3, 4], [2, 2], [2, 1], 0⟩ : BaseTensor).shape.prod →
        r.data[i]? = Option.map₂ (· + ·)
          (⟨[1, 2, 3, 4], [2, 2], [2, 1], 0⟩ : BaseTensor).data[i]?
          (⟨[10, 20, 30, 40], [2, 2], [2, 1], 0⟩ : BaseTensor).data[i]? :=
  ⟨⟨rfl, by decide, by decide⟩,
    add_flat_elementwise ⟨[1, 2, 3, 4], [2, 2], [2, 1], 0⟩
      ⟨[10, 20, 30, 40], [2, 2], [2, 1], 0⟩ rfl (by decide) (by decide)⟩

/-- C2 counterexample: the strides of the result are NOT recomputed as the
contiguous row-major default; they are copied from the left operand. With
shape [2] and strides [2] on both operands, add and sub return strides [2],
while the contiguous default for shape [2] is [1]. -/
theorem strides_not_recomputed_counterexample :
    BaseTensor.add ⟨[1, 2], [2], [2], 0⟩ ⟨[1, 2], [2], [2], 0⟩ =
      .ok ⟨[2, 4], [2], [2], 0⟩ ∧
    Tensor.sub ⟨⟨[1, 2], [2], [2], 0⟩⟩ ⟨⟨[1, 2], [2], [2], 0⟩⟩ =
      .ok ⟨⟨[0, 0], [2], [2], 0⟩⟩ ∧
    contiguousStrides [2] = [1] ∧
    (⟨[2, 4], [2], [2], 0⟩ : BaseTensor).strides ≠ contiguousStrides [2] :=
  ⟨rfl, rfl, rfl, by decide⟩

/-- C2 (amended): the result of add and of sub carries the shape of the left
operand and its strides UNCHANGED (copied, not recomputed as the
contiguous default), and its offset is reset to 0, whatever strides and offset
the inputs carried. -/
theorem result_view_metadata (a b : BaseTensor) (h : a.shape = b.shape)
    (ha : a.shape.prod ≤ a.data.length) (hb : a.shape.prod ≤ b.data.length) :
    (∃ r, BaseTensor.add a b = .ok r ∧
      r.shape = a.shape ∧ r.strides = a.strides ∧ r.offset = 0) ∧
    (∃ s, Tensor.sub ⟨a⟩ ⟨b⟩ = .ok s ∧
      s.base.shape = a.shape ∧ s.base.strides = a.strides ∧
      s.base.offset = 0) := by
  obtain ⟨d1, hd1, -, -⟩ :=
    elemLoopFrom_ok (· + ·) a.data b.data a.shape.prod 0 (by omega) (by omega)
  obtain ⟨d2, hd2, -, -⟩ :=
    elemLoopFrom_ok (· - ·) a.data b.data a.shape.prod 0 (by omega) (by omega)
  constructor
  · exact ⟨⟨d1, a.shape, a.strides, 0⟩, add_ok_of_loop a b h d1 hd1,
      rfl, rfl, rfl⟩
  · exact ⟨⟨⟨d2, a.shape, a.strides, 0⟩⟩, sub_ok_of_loop ⟨a⟩ ⟨b⟩ h d2 hd2,
      rfl, rfl, rfl⟩

/-- C2 witness: the amended theorem applied to tensors with noncontiguous
strides [2] and shape [2]. -/
theorem result_view_metadata_witness :
    (([2] : List Nat) = [2] ∧
      ([2] : List Nat).prod ≤ ([1, 2] : List Int).length ∧
      ([2] : List Nat).prod ≤ ([3, 4] : List Int).length) ∧
    (∃ r, BaseTensor.add ⟨[1, 2], [2], [2], 0⟩ ⟨[3, 4], [2], [2], 0⟩ = .ok r ∧
      r.shape = (⟨[1, 2], [2], [2], 0⟩ : BaseTensor).shape ∧
      r.strides = (⟨[1, 2], [2], [2], 0⟩ : BaseTensor).strides ∧
      r.offset = 0) ∧
    (∃ s, Tensor.sub ⟨⟨[1, 2], [2], [2], 0⟩⟩ ⟨⟨[3, 4], [2], [2], 0⟩⟩ = .ok s ∧
      s.base.shape = (⟨[1, 2], [2], [2], 0⟩ : BaseTensor).shape ∧
      s.base.strides = (⟨[1, 2], [2], [2], 0⟩ : BaseTensor).strides ∧
      s.base.offset = 0) :=
  ⟨⟨rfl, by decide, by decide⟩,
    result_view_metadata ⟨[1, 2], [2], [2], 0⟩ ⟨[3, 4], [2], [2], 0⟩
      rfl (by decide) (by decide)⟩

/-- C3: when the operand shapes differ, add and sub panic with the
shape-mismatch panic (Except.error models the Rust panic, which is fatal and
not a recoverable Result); the second component of the pair is the trace of buffer
indices read, and it is empty: the panic happens before any element is read or
computed, so no partial result exists. -/
theorem shape_mismatch_panics_before_reads (a b : BaseTensor)
    (h : a.shape ≠ b.shape) :
    BaseTensor.addTraced a b = (.error (.shapeMismatch a.shape b.shape), []) ∧
    Tensor.subTraced ⟨a⟩ ⟨b⟩ =
      (.error (.shapeMismatch a.shape b.shape), []) := by
  constructor
  · simp [BaseTensor.addTraced, h]
  · simp [Tensor.subTraced, h]

/-- C3 witness: shapes [2] and [3]. -/
theorem shape_mismatch_panics_before_reads_witness :
    (([2] : List Nat) ≠ [3]) ∧
    BaseTensor.addTraced ⟨[1, 2], [2], [1], 0⟩ ⟨[1, 2, 3], [3], [1], 0⟩ =
      (.error (.shapeMismatch [2] [3]), []) ∧
    Tensor.subTraced ⟨⟨[1, 2], [2], [1], 0⟩⟩ ⟨⟨[1, 2, 3], [3], [1], 0⟩⟩ =
      (.error (.shapeMismatch [2] [3]), []) :=
  ⟨by decide,
    shape_mismatch_panics_before_reads ⟨[1, 2], [2], [1], 0⟩
      ⟨[1, 2, 3], [3], [1], 0⟩ (by decide)⟩

/-- C4: for equal-shape Tensors over the signed element type, the element of
a - b at each linear index i is a.data[i] - b.data[i], in the full signed
integers (so negative results are represented exactly). The concrete
[1,2,3,4] - [10,20,30,40] = [-9,-18,-27,-36] scenario is checked in the
witness. -/
theorem sub_flat_elementwise (a b : Tensor) (h : a.base.shape = b.base.shape)
    (ha : a.base.shape.prod ≤ a.base.data.length)
    (hb : a.base.shape.prod ≤ b.base.data.length) :
    ∃ r, Tensor.sub a b = .ok r ∧ r.base.shape = a.base.shape ∧
      r.base.data.length = a.base.shape.prod ∧
      ∀ i, i < a.base.shape.prod →
        r.base.data[i]? =
          Option.map₂ (· - ·) a.base.data[i]? b.base.data[i]? := by
  obtain ⟨d, hd, hlen, hget⟩ :=
    elemLoopFrom_ok (· - ·) a.base.data b.base.data a.base.shape.prod 0
      (by omega) (by omega)
  refine ⟨⟨⟨d, a.base.shape, a.base.strides, 0⟩⟩,
    sub_ok_of_loop a b h d hd, rfl, hlen, ?_⟩
  intro i hi
  simpa using hget i hi

/-- C4 witness: [1,2,3,4] - [10,20,30,40], both shaped [2,2], gives the
negative results [-9,-18,-27,-36]. -/
theorem sub_flat_elementwise_witness :
    (([2, 2] : List Nat) = [2, 2] ∧
      ([2, 2] : List Nat).prod ≤ ([1, 2, 3, 4] : List Int).length ∧
      ([2, 2] : List Nat).prod ≤ ([10, 20, 30, 40] : List Int).length) ∧
    Tensor.sub ⟨⟨[1, 2, 3, 4], [2, 2], [2, 1], 0⟩⟩
      ⟨⟨[10, 20, 30, 40], [2, 2], [2, 1], 0⟩⟩ =
      .ok ⟨⟨[-9, -18, -27, -36], [2, 2], [2, 1], 0⟩⟩ ∧
    (∃ r, Tensor.sub ⟨⟨[1, 2, 3, 4], [2, 2], [2, 1], 0⟩⟩
        ⟨⟨[10, 20, 30, 40], [2, 2], [2, 1], 0⟩⟩ = .ok r ∧
      r.base.shape = (⟨[1, 2, 3, 4], [2, 2], [2, 1], 0⟩ : BaseTensor).shape ∧
      r.base.data.length =
        (⟨[1, 2, 3, 4], [2, 2], [2, 1], 0⟩ : BaseTensor).shape.prod ∧
      ∀ i, i < (⟨[1, 2, 3, 4], [2, 2], [2, 1], 0⟩ : BaseTensor).shape.prod →
        r.base.data[i]? = Option.map₂ (· - ·)
          (⟨[1, 2, 3, 4], [2, 2], [2, 1], 0⟩ : BaseTensor).data[i]?
          (⟨[10, 20, 30, 40], [2, 2], [2, 1], 0⟩ : BaseTensor).data[i]?) :=
  ⟨⟨rfl, by decide, by decide⟩, rfl,
    sub_flat_elementwise ⟨⟨[1, 2, 3, 4], [2, 2], [2, 1], 0⟩⟩
      ⟨⟨[10, 20, 30, 40], [2, 2], [2, 1], 0⟩⟩ rfl (by decide) (by decide)⟩

/-- C5: addition of compatible (equal-shape, sufficiently long buffered)
tensors is commutative elementwise: a + b and b + a both succeed and their
result buffers are equal, by commutativity of addition on the element type. -/
theorem add_commutative (a b : BaseTensor) (h : a.shape = b.shape)
    (ha : a.shape.prod ≤ a.data.length) (hb : a.shape.prod ≤ b.data.length) :
    ∃ r s, BaseTensor.add a b = .ok r ∧ BaseTensor.add b a = .ok s ∧
      r.data = s.data := by
  have hp : b.shape.prod = a.shape.prod := by rw [h]
  obtain ⟨d1, hd1, hlen1, hget1⟩ :=
    elemLoopFrom_ok (· + ·) a.data b.data a.shape.prod 0 (by omega) (by omega)
  obtain ⟨d2, hd2, hlen2, hget2⟩ :=
    elemLoopFrom_ok (· + ·) b.data a.data b.shape.prod 0 (by omega) (by omega)
  have hdd : d1 = d2 := by
    apply List.ext_getElem?
    intro n
    rcases Nat.lt_or_ge n a.shape.prod with hn | hn
    · rw [hget1 n hn, hget2 n (by omega)]
      cases a.data[0 + n]? <;> cases b.data[0 + n]? <;>
        simp [Option.map₂, Int.add_comm]
    · rw [List.getElem?_eq_none (by omega), List.getElem?_eq_none (by omega)]
  exact ⟨⟨d1, a.shape, a.strides, 0⟩, ⟨d2, b.shape, b.strides, 0⟩,
    add_ok_of_loop a b h d1 hd1, add_ok_of_loop b a h.symm d2 hd2, hdd⟩

/-- C5 witness: [1,2] + [3,4] equals [3,4] + [1,2] elementwise. -/
theorem add_commutative_witness :
    (([2] : List Nat) = [2] ∧
      ([2] : List Nat).prod ≤ ([1, 2] : List Int).length ∧
      ([2] : List Nat).prod ≤ ([3, 4] : List Int).length) ∧
    ∃ r s, BaseTensor.add ⟨[1, 2], [2], [1], 0⟩ ⟨[3, 4], [2], [1], 0⟩ = .ok r ∧
      BaseTensor.add ⟨[3, 4], [2], [1], 0⟩ ⟨[1, 2], [2], [1], 0⟩ = .ok s ∧
      r.data = s.data :=
  ⟨⟨rfl, by decide, by decide⟩,
    add_commutative ⟨[1, 2], [2], [1], 0⟩ ⟨[3, 4], [2], [1], 0⟩
      rfl (by decide) (by decide)⟩

/-- C9: the concrete scenario of the types.rs add test: [1,2,3,4] shaped
[2,2] plus [10,20,30,40] shaped [2,2] yields [11,22,33,44] shaped [2,2]
(contiguous strides [2,1], offset 0, as in the test). -/
theorem concrete_add_scenario :
    Tensor.add ⟨⟨[1, 2, 3, 4], [2, 2], [2, 1], 0⟩⟩
      ⟨⟨[10, 20, 30, 40], [2, 2], [2, 1], 0⟩⟩ =
      .ok ⟨⟨[11, 22, 33, 44], [2, 2], [2, 1], 0⟩⟩ := rfl

/-- C10: add and sub iterate flat indices 0..product(shape) with no bounds
guard and no use of strides or offset, so when the buffer of either operand is
shorter than product(shape) the operation panics with the Vec
index-out-of-bounds panic (modelled by Except.error, not a recoverable ok)
at the first missing index, min of the two buffer lengths. -/
theorem short_buffer_panics (a b : BaseTensor) (h : a.shape = b.shape)
    (hshort : min a.data.length b.data.length < a.shape.prod) :
    BaseTensor.add a b =
      .error (.indexOutOfBounds (min a.data.length b.data.length)
        (min a.data.length b.data.length)) ∧
    Tensor.sub ⟨a⟩ ⟨b⟩ =
      .error (.indexOutOfBounds (min a.data.length b.data.length)
        (min a.data.length b.data.length)) := by
  have h1 := elemLoopFrom_oob (· + ·) a.data b.data a.shape.prod 0
    (by omega) (by omega)
  have h2 := elemLoopFrom_oob (· - ·) a.data b.data a.shape.prod 0
    (by omega) (by omega)
  exact ⟨add_error_of_loop a b h _ h1, sub_error_of_loop ⟨a⟩ ⟨b⟩ h _ h2⟩

/-- C10 witness: a view of a 2-element buffer claiming shape [2,2] (as an
offset view into a short buffer would) panics out-of-bounds at index 2. -/
theorem short_buffer_panics_witness :
    (([2, 2] : List Nat) = [2, 2] ∧
      min ([5, 6] : List Int).length ([1, 2, 3, 4] : List Int).length <
        ([2, 2] : List Nat).prod) ∧
    BaseTensor.add ⟨[5, 6], [2, 2], [2, 1], 0⟩ ⟨[1, 2, 3, 4], [2, 2], [2, 1], 0⟩ =
      .error (.indexOutOfBounds
        (min ([5, 6] : List Int).length ([1, 2, 3, 4] : List Int).length)
        (min ([5, 6] : List Int).length ([1, 2, 3, 4] : List Int).length)) ∧
    Tensor.sub ⟨⟨[5, 6], [2, 2], [2, 1], 0⟩⟩ ⟨⟨[1, 2, 3, 4], [2, 2], [2, 1], 0⟩⟩ =
      .error (.indexOutOfBounds
        (min ([5, 6] : List Int).length ([1, 2, 3, 4] : List Int).length)
        (min ([5, 6] : List Int).length ([1, 2, 3, 4] : List Int).length)) :=
  ⟨⟨rfl, by decide⟩,
    short_buffer_panics ⟨[5, 6], [2, 2], [2, 1], 0⟩
      ⟨[1, 2, 3, 4], [2, 2], [2, 1], 0⟩ rfl (by decide)⟩

/-! ## Store model for aliasing and allocation

Rc<RefCell<Vec<T>>> sharing is made explicit: a store is the list of all
allocated buffers, and a tensor holds the index of its buffer in the store
(its Rc). Rc::new(RefCell::new(result_data)) in the source appends a fresh
buffer to the store; dereferencing an Rc never fails in Rust, so theorems
about this model carry validity hypotheses (dataId below the store length)
instead of an error case for dangling ids. -/

/-- A BaseTensor whose Rc<RefCell<Vec<T>>> is explicit: dataId is the index of
the shared buffer in the store. -/
structure StoreTensor where
  dataId : Nat
  shape : List Nat
  strides : List Nat
  offset : Nat
deriving DecidableEq

/-- The collection of all live buffers; position = Rc identity. -/
abbrev Store := List (List Int)

/-- impl Add for BaseTensor (types.rs lines 25-60) over the explicit store:
identical to BaseTensor.add except that the buffers are fetched from the
store through the Rc ids of the operands and the fresh result buffer is appended to
the store, the result tensor pointing at it. -/
def addStore (s : Store) (a b : StoreTensor) :
    Except RustPanic (Store × StoreTensor) :=
  if a.shape = b.shape then
    (elemLoopFrom (· + ·) (s.getD a.dataId []) (s.getD b.dataId [])
        0 a.shape.prod).1.map fun d =>
      (s ++ [d], ⟨s.length, a.shape, a.strides, 0⟩)
  else
    .error (.shapeMismatch a.shape b.shape)

/-- impl Sub for Tensor (types.rs lines 91-123) over the explicit store: same
shape as addStore with the subtraction of the element type. -/
def subStore (s : Store) (a b : StoreTensor) :
    Except RustPanic (Store × StoreTensor) :=
  if a.shape = b.shape then
    (elemLoopFrom (· - ·) (s.getD a.dataId []) (s.getD b.dataId [])
        0 a.shape.prod).1.map fun d =>
      (s ++ [d], ⟨s.length, a.shape, a.strides, 0⟩)
  else
    .error (.shapeMismatch a.shape b.shape)

/-- C6: on valid inputs, add and sub each allocate a fresh buffer: the result
store is the old store extended with one new buffer, the result tensor points
at that new buffer (its id differs from the ids of both inputs), and every
buffer the inputs could reach is unchanged — in particular the buffers of
both operands. The view metadata of the operands is immutable value data in
this model, so the
inputs are completely unchanged by the operation. -/
theorem ops_allocate_fresh_storage (s : Store) (a b : StoreTensor)
    (h : a.shape = b.shape)
    (hA : a.dataId < s.length) (hB : b.dataId < s.length)
    (hla : a.shape.prod ≤ (s.getD a.dataId []).length)
    (hlb : a.shape.prod ≤ (s.getD b.dataId []).length) :
    (∃ d, addStore s a b = .ok (s ++ [d], ⟨s.length, a.shape, a.strides, 0⟩) ∧
      s.length ≠ a.dataId ∧ s.length ≠ b.dataId ∧
      (∀ id, id < s.length → (s ++ [d])[id]? = s[id]?)) ∧
    (∃ d, subStore s a b = .ok (s ++ [d], ⟨s.length, a.shape, a.strides, 0⟩) ∧
      s.length ≠ a.dataId ∧ s.length ≠ b.dataId ∧
      (∀ id, id < s.length → (s ++ [d])[id]? = s[id]?)) := by
  obtain ⟨d1, hd1, -, -⟩ :=
    elemLoopFrom_ok (· + ·) (s.getD a.dataId []) (s.getD b.dataId [])
      a.shape.prod 0 (by omega) (by omega)
  obtain ⟨d2, hd2, -, -⟩ :=
    elemLoopFrom_ok (· - ·) (s.getD a.dataId []) (s.getD b.dataId [])
      a.shape.prod 0 (by omega) (by omega)
  simp only [List.getD_eq_getElem?_getD] at hd1 hd2
  constructor
  · refine ⟨d1, ?_, by omega, by omega,
      fun id hid => List.getElem?_append_left hid⟩
    unfold addStore
    rw [if_pos h]
    simp [hd1, Except.map]
  · refine ⟨d2, ?_, by omega, by omega,
      fun id hid => List.getElem?_append_left hid⟩
    unfold subStore
    rw [if_pos h]
    simp [hd2, Except.map]

/-- C6 witness: a one-buffer store shared by both operands (two views of one
Rc); the result is a fresh second buffer and the first is untouched. -/
theorem ops_allocate_fresh_storage_witness :
    ((⟨0, [2], [1], 0⟩ : StoreTensor).shape = (⟨0, [2], [1], 0⟩ : StoreTensor).shape ∧
      (0 : Nat) < ([[1, 2]] : Store).length ∧
      ([2] : List Nat).prod ≤ (([[1, 2]] : Store).getD 0 []).length) ∧
    (∃ d, addStore [[1, 2]] ⟨0, [2], [1], 0⟩ ⟨0, [2], [1], 0⟩ =
        .ok ([[1, 2]] ++ [d], ⟨([[1, 2]] : Store).length, [2], [1], 0⟩) ∧
      ([[1, 2]] : Store).length ≠ 0 ∧ ([[1, 2]] : Store).length ≠ 0 ∧
      (∀ id, id < ([[1, 2]] : Store).length →
        ([[1, 2]] ++ [d])[id]? = ([[1, 2]] : Store)[id]?)) ∧
    (∃ d, subStore [[1, 2]] ⟨0, [2], [1], 0⟩ ⟨0, [2], [1], 0⟩ =
        .ok ([[1, 2]] ++ [d], ⟨([[1, 2]] : Store).length, [2], [1], 0⟩) ∧
      ([[1, 2]] : Store).length ≠ 0 ∧ ([[1, 2]] : Store).length ≠ 0 ∧
      (∀ id, id < ([[1, 2]] : Store).length →
        ([[1, 2]] ++ [d])[id]? = ([[1, 2]] : Store)[id]?)) :=
  ⟨⟨rfl, by decide, by decide⟩,
    ops_allocate_fresh_storage [[1, 2]] ⟨0, [2], [1], 0⟩ ⟨0, [2], [1], 0⟩
      rfl (by decide) (by decide) (by decide) (by decide)⟩

/-! ## AutoGrad capability model (lib.rs)

lib.rs defines the AutoGrad trait (REQUIRES_GRAD plus get_grad_fn), the
NoExtraInfo and AutogradInfo capability types, and the GradFunction trait, but
contains no concrete GradFunction implementation, and its Tensor::add is a
stub that calls an undefined get_new_state_after_op. The parts present in
lib.rs are embedded directly; the missing parts are modelled from the spec and
say so in their doc comments. -/

/-- Modelled from the spec: the repository declares trait GradFunction
(lib.rs lines 9-17) but implements it for no operation; spec section 4.4 says
each recorded operation holds references to its already-constructed inputs and
supplies its own derivative rule, with one variant per producing operation
(addition, subtraction). -/
inductive GradFn where
  | addFn (lhs rhs : BaseTensor) : GradFn
  | subFn (lhs rhs : BaseTensor) : GradFn
deriving DecidableEq

/-- Elementwise negation of the buffer of a tensor, used for the sign of the
subtraction derivative with respect to the right input. -/
def negTensor (t : BaseTensor) : BaseTensor :=
  { t with data := t.data.map (- ·) }

/-- Modelled from the spec: GradFunction.backward (lib.rs lines 10-16 declare
only its signature). Spec section 4.4: given the gradient flowing into the
output of the operation, produce the gradient for each recorded input, paired
with that input; the backward of addition is the identity on both inputs, and
that of subtraction is the identity on the left input and the identity with the
sign flipped on the right input. -/
def GradFn.backward : GradFn → BaseTensor → List (BaseTensor × BaseTensor)
  | .addFn lhs rhs, gradOutput => [(lhs, gradOutput), (rhs, gradOutput)]
  | .subFn lhs rhs, gradOutput => [(lhs, gradOutput), (rhs, negTensor gradOutput)]

/-- lib.rs struct NoExtraInfo: zero-sized marker for tensors that do not track
gradients. -/
inductive NoExtraInfo where
  | mk : NoExtraInfo
deriving DecidableEq

/-- lib.rs impl AutoGrad for NoExtraInfo (lines 31-37): REQUIRES_GRAD is the
compile-time constant false. -/
def NoExtraInfo.requiresGrad (_ : NoExtraInfo) : Bool := false

/-- lib.rs impl AutoGrad for NoExtraInfo (lines 31-37): get_grad_fn returns
None — no gradient function exists. -/
def NoExtraInfo.get_grad_fn (_ : NoExtraInfo) : Option GradFn := none

/-- lib.rs struct AutogradInfo: the tracking capability always holds a
gradient function (the PhantomData field carries no data and is dropped). -/
structure AutogradInfo where
  grad_fn : GradFn
deriving DecidableEq

/-- lib.rs impl AutoGrad for AutogradInfo (lines 47-54): REQUIRES_GRAD is the
compile-time constant true. -/
def AutogradInfo.requiresGrad (_ : AutogradInfo) : Bool := true

/-- lib.rs impl AutoGrad for AutogradInfo (lines 47-54): get_grad_fn returns
Some of the held gradient function. -/
def AutogradInfo.get_grad_fn (i : AutogradInfo) : Option GradFn :=
  some i.grad_fn

/-- lib.rs type InferenceTensor<T> = Tensor<T, NoExtraInfo, NoExtraInfo>:
base tensor plus the non-tracking capability (and the reserved quantization
slot, also NoExtraInfo). -/
structure InferenceTensor where
  base : BaseTensor
  grad : NoExtraInfo
  quant : NoExtraInfo
deriving DecidableEq

/-- lib.rs type TrainingTensor<T> = Tensor<T, AutogradInfo<T>, NoExtraInfo>:
base tensor plus the tracking capability. -/
structure TrainingTensor where
  base : BaseTensor
  grad : AutogradInfo
  quant : NoExtraInfo
deriving DecidableEq

/-- Modelled from the spec: lib.rs Tensor::add (lines 78-104) is a stub whose
element computation is elided and whose capability update calls the undefined
get_new_state_after_op; spec section 4.3 says the tracked operation delegates
the element computation to the BaseTensor-level operation, constructs a
GradFunction recording references to the two input tensors, and attaches it
to the capability of the result. -/
def trackedAdd (a b : TrainingTensor) : Except RustPanic TrainingTensor :=
  (BaseTensor.add a.base b.base).map fun r =>
    { base := r, grad := ⟨.addFn a.base b.base⟩, quant := .mk }

/-- Modelled from the spec: the tracked subtraction, symmetric to trackedAdd
(spec section 4.3, with the subtraction GradFunction variant). -/
def trackedSub (a b : TrainingTensor) : Except RustPanic TrainingTensor :=
  (Tensor.sub ⟨a.base⟩ ⟨b.base⟩).map fun r =>
    { base := r.base, grad := ⟨.subFn a.base b.base⟩, quant := .mk }

/-- Spec-side definition (spec section 8): the all-ones gradient matching a
given output shape — a contiguous tensor of product(shape) ones. -/
def onesLike (shape : List Nat) : BaseTensor :=
  ⟨List.replicate shape.prod 1, shape, contiguousStrides shape, 0⟩

/-- C7: a tensor whose static capability is NoExtraInfo answers none from
get_grad_fn, whatever its base tensor is and however it was produced:
NoExtraInfo is a unit type whose accessor is constantly none, so no sequence
of operations can ever make this state transition. -/
theorem noextrainfo_get_grad_fn_none (t : InferenceTensor) :
    t.grad.get_grad_fn = none ∧ t.grad.requiresGrad = false :=
  ⟨rfl, rfl⟩

/-- C8: a tracking tensor produced by addition or subtraction carries a
gradient function: get_grad_fn returns Some of the recorded operation, and
the backward of that operation, fed the all-ones gradient of the output shape,
returns the mathematically correct derivative paired with each input —
the unchanged all-ones gradient for both addition inputs, and for
subtraction the all-ones gradient for the left input and its elementwise
negation (all minus-ones) for the right input. -/
theorem tracked_ops_attach_correct_grad_fn (a b : TrainingTensor)
    (h : a.base.shape = b.base.shape)
    (ha : a.base.shape.prod ≤ a.base.data.length)
    (hb : a.base.shape.prod ≤ b.base.data.length) :
    (∃ r, trackedAdd a b = .ok r ∧
      r.grad.get_grad_fn = some (.addFn a.base b.base) ∧
      GradFn.backward (.addFn a.base b.base) (onesLike r.base.shape) =
        [(a.base, onesLike a.base.shape), (b.base, onesLike a.base.shape)]) ∧
    (∃ r, trackedSub a b = .ok r ∧
      r.grad.get_grad_fn = some (.subFn a.base b.base) ∧
      GradFn.backward (.subFn a.base b.base) (onesLike r.base.shape) =
        [(a.base, onesLike a.base.shape),
          (b.base, negTensor (onesLike a.base.shape))] ∧
      (negTensor (onesLike a.base.shape)).data =
        List.replicate a.base.shape.prod (-1)) := by
  obtain ⟨d1, hd1, -, -⟩ :=
    elemLoopFrom_ok (· + ·) a.base.data b.base.data a.base.shape.prod 0
      (by omega) (by omega)
  obtain ⟨d2, hd2, -, -⟩ :=
    elemLoopFrom_ok (· - ·) a.base.data b.base.data a.base.shape.prod 0
      (by omega) (by omega)
  constructor
  · refine ⟨⟨⟨d1, a.base.shape, a.base.strides, 0⟩, ⟨.addFn a.base b.base⟩, .mk⟩,
      ?_, rfl, rfl⟩
    unfold trackedAdd
    rw [add_ok_of_loop a.base b.base h d1 hd1]
    rfl
  · refine ⟨⟨⟨d2, a.base.shape, a.base.strides, 0⟩, ⟨.subFn a.base b.base⟩, .mk⟩,
      ?_, rfl, rfl, ?_⟩
    · unfold trackedSub
      rw [sub_ok_of_loop ⟨a.base⟩ ⟨b.base⟩ h d2 hd2]
      rfl
    · simp [negTensor, onesLike, List.map_replicate]

/-- C8 witness: tracked [1,2] plus and minus [3,4], shape [2]; backward of
the recorded operations on the all-ones gradient returns ones (and minus
ones for the right input of subtraction). -/
theorem tracked_ops_attach_correct_grad_fn_witness :
    (([2] : List Nat) = [2] ∧
      ([2] : List Nat).prod ≤ ([1, 2] : List Int).length ∧
      ([2] : List Nat).prod ≤ ([3, 4] : List Int).length) ∧
    (∃ r, trackedAdd ⟨⟨[1, 2], [2], [1], 0⟩, ⟨.addFn ⟨[9], [1], [1], 0⟩ ⟨[9], [1], [1], 0⟩⟩, .mk⟩
        ⟨⟨[3, 4], [2], [1], 0⟩, ⟨.addFn ⟨[9], [1], [1], 0⟩ ⟨[9], [1], [1], 0⟩⟩, .mk⟩ = .ok r ∧
      r.grad.get_grad_fn = some (.addFn ⟨[1, 2], [2], [1], 0⟩ ⟨[3, 4], [2], [1], 0⟩) ∧
      GradFn.backward (.addFn ⟨[1, 2], [2], [1], 0⟩ ⟨[3, 4], [2], [1], 0⟩)
          (onesLike r.base.shape) =
        [(⟨[1, 2], [2], [1], 0⟩, onesLike [2]), (⟨[3, 4], [2], [1], 0⟩, onesLike [2])]) ∧
    (∃ r, trackedSub ⟨⟨[1, 2], [2], [1], 0⟩, ⟨.addFn ⟨[9], [1], [1], 0⟩ ⟨[9], [1], [1], 0⟩⟩, .mk⟩
        ⟨⟨[3, 4], [2], [1], 0⟩, ⟨.addFn ⟨[9], [1], [1], 0⟩ ⟨[9], [1], [1], 0⟩⟩, .mk⟩ = .ok r ∧
      r.grad.get_grad_fn = some (.subFn ⟨[1, 2], [2], [1], 0⟩ ⟨[3, 4], [2], [1], 0⟩) ∧
      GradFn.backward (.subFn ⟨[1, 2], [2], [1], 0⟩ ⟨[3, 4], [2], [1], 0⟩)
          (onesLike r.base.shape) =
        [(⟨[1, 2], [2], [1], 0⟩, onesLike [2]),
          (⟨[3, 4], [2], [1], 0⟩, negTensor (onesLike [2]))] ∧
      (negTensor (onesLike [2])).data = List.replicate ([2] : List Nat).prod (-1)) :=
  ⟨⟨rfl, by decide, by decide⟩,
    tracked_ops_attach_correct_grad_fn
      ⟨⟨[1, 2], [2], [1], 0⟩, ⟨.addFn ⟨[9], [1], [1], 0⟩ ⟨[9], [1], [1], 0⟩⟩, .mk⟩
      ⟨⟨[3, 4], [2], [1], 0⟩, ⟨.addFn ⟨[9], [1], [1], 0⟩ ⟨[9], [1], [1], 0⟩⟩, .mk⟩
      rfl (by decide) (by decide)⟩

end SilverSpoon
